import Mathlib

/-!
Shallow embedding of prefligit's hook-resolution pipeline (`src/hook.rs`) and of
the Python language backend's run aggregation (`src/languages/python/python.rs`),
together with theorems settling the specification claims about them.

Pure functions of the source become Lean functions; the `async` orchestration in
`Project::hooks` is embedded by making the completion order of the two
`FuturesUnordered` queues an explicit schedule parameter (a permutation of the
submitted tasks); fallible code returns `Except`; a Rust `panic!`/`expect`
becomes `Option`.  External collaborators that are not part of the sources
(the store, URL parsing, manifest reading) are an explicit `Env` of oracles.
-/

namespace Prefligit

/-- Paths (`PathBuf`) are modelled as plain strings. -/
abbrev PathBuf := String

/-- A parsed URL is modelled by its serialized string form. -/
abbrev Url := String

/-- Modelled from the spec: the `Language` enum lives in `config.rs`, which is
not among the sources; §4.4 requires one backend per language with a
`needInstall` capability.  A representative set of members is modelled: two
languages that need an environment and three that do not. -/
inductive Language
  | python
  | node
  | system
  | script
  | fail
deriving DecidableEq

/-- Modelled from the spec (§4.4 `needInstall`): whether this language requires
an isolated environment at all. -/
def Language.need_install : Language → Bool
  | .python => true
  | .node => true
  | .system => false
  | .script => false
  | .fail => false

/-- Modelled from the spec: `languages::DEFAULT_VERSION`, imported by `hook.rs`
but defined outside the sources. -/
def DEFAULT_VERSION : String := "default"

/-- Modelled from the spec (§4.1: "the language's built-in default version");
the per-language implementations are outside the sources. -/
def Language.default_version : Language → String
  | _ => DEFAULT_VERSION

/-- Display name of a language, used in the warning messages of
`HookBuilder::check`. -/
def Language.name : Language → String
  | .python => "python"
  | .node => "node"
  | .system => "system"
  | .script => "script"
  | .fail => "fail"

/-- Modelled from the spec: the `Stage` enum of `config.rs` (not among the
sources); `Stage::value_variants()` is its full catalog. -/
inductive Stage
  | commitMsg
  | postCheckout
  | postCommit
  | postMerge
  | postRewrite
  | preCommit
  | preMergeCommit
  | prePush
  | preRebase
  | prepareCommitMsg
  | manual
deriving DecidableEq

/-- Modelled from the spec: `Stage::value_variants().to_vec()` — the full
catalog of known stages. -/
def Stage.value_variants : List Stage :=
  [.commitMsg, .postCheckout, .postCommit, .postMerge, .postRewrite, .preCommit,
   .preMergeCommit, .prePush, .preRebase, .prepareCommitMsg, .manual]

/-- `ManifestHook` (from `config.rs`, reconstructed from every field `hook.rs`
reads or writes): the full default hook definition published by a repository's
manifest.  `id`, `name`, `entry` and `language` are mandatory; every other
field is optional. -/
structure ManifestHook where
  id : String
  name : String
  entry : String
  language : Language
  «alias» : Option String := none
  files : Option String := none
  exclude : Option String := none
  types : Option (List String) := none
  types_or : Option (List String) := none
  exclude_types : Option (List String) := none
  additional_dependencies : Option (List String) := none
  args : Option (List String) := none
  always_run : Option Bool := none
  fail_fast : Option Bool := none
  pass_filenames : Option Bool := none
  description : Option String := none
  language_version : Option String := none
  log_file : Option String := none
  require_serial : Option Bool := none
  stages : Option (List Stage) := none
  verbose : Option Bool := none
  minimum_pre_commit_version : Option String := none
deriving DecidableEq

/-- `ConfigRemoteHook` (from `config.rs`, reconstructed from the fields
`HookBuilder::update` consumes): a project-level partial hook definition;
`id` selects the manifest hook, every other field is optional. -/
structure ConfigRemoteHook where
  id : String
  name : Option String := none
  entry : Option String := none
  language : Option Language := none
  «alias» : Option String := none
  files : Option String := none
  exclude : Option String := none
  types : Option (List String) := none
  types_or : Option (List String) := none
  exclude_types : Option (List String) := none
  additional_dependencies : Option (List String) := none
  args : Option (List String) := none
  always_run : Option Bool := none
  fail_fast : Option Bool := none
  pass_filenames : Option Bool := none
  description : Option String := none
  language_version : Option String := none
  log_file : Option String := none
  require_serial : Option Bool := none
  stages : Option (List Stage) := none
  verbose : Option Bool := none
  minimum_pre_commit_version : Option String := none
deriving DecidableEq

/-- `ConfigLocalHook` is an alias of `ManifestHook` (local repositories declare
full hook definitions inline). -/
abbrev ConfigLocalHook := ManifestHook

/-- `ConfigRemoteRepo`: a remote repository entry of the project configuration. -/
structure ConfigRemoteRepo where
  repo : String
  rev : String
  hooks : List ConfigRemoteHook
deriving DecidableEq

/-- `ConfigLocalRepo`: a local repository entry of the project configuration. -/
structure ConfigLocalRepo where
  hooks : List ConfigLocalHook
deriving DecidableEq

/-- `ConfigRepo`: tagged repository entry — remote, local, or meta. -/
inductive ConfigRepo
  | Remote (repo : ConfigRemoteRepo)
  | Local (repo : ConfigLocalRepo)
  | Meta
deriving DecidableEq

/-- `ConfigWire` (from `config.rs`, reconstructed from the fields `hook.rs`
reads): the parsed project configuration.  The `HashMap<Language, String>` of
`default_language_version` is modelled as an association list. -/
structure ConfigWire where
  repos : List ConfigRepo
  default_language_version : Option (List (Language × String)) := none
  default_stages : Option (List Stage) := none

/-- Lookup in the modelled `default_language_version` map. -/
def lookupDefaultVersion (m : List (Language × String)) (lang : Language) : Option String :=
  (m.find? fun p => p.1 == lang).map Prod.snd

/-- The error enum of `hook.rs` (lines 22-32).  The payloads of the transparent
variants are modelled as their rendered messages. -/
inductive Error
  | InvalidUrl (msg : String)
  | ReadConfig (msg : String)
  | HookNotFound (hook : String) (repo : String)
  | Store (msg : String)
deriving DecidableEq

/-- The `thiserror` display strings of `Error` (lines 24-31): `InvalidUrl`
prefixes its cause, `ReadConfig` and `Store` are transparent, and
`HookNotFound` names the hook id and the repository descriptor. -/
def Error.message : Error → String
  | .InvalidUrl m => "Failed to parse URL: " ++ m
  | .ReadConfig m => m
  | .HookNotFound hook repo => "Hook not found: " ++ hook ++ " in repo " ++ repo
  | .Store m => m

/-- `MANIFEST_FILE` (from `config.rs`, modelled from the spec: the manifest
file name joined onto the repo path by `Repo::remote`). -/
def MANIFEST_FILE : String := ".pre-commit-hooks.yaml"

/-- The loaded `Repo` enum of `hook.rs` (lines 34-47). -/
inductive Repo
  | Remote (path : PathBuf) (url : Url) (rev : String) (hooks : List ManifestHook)
  | Local (hooks : List ManifestHook)
  | Meta
deriving DecidableEq

/-- `Repo::get_hook` (lines 76-84): find a manifest hook by id. -/
def Repo.get_hook : Repo → String → Option ManifestHook
  | .Remote _ _ _ hooks, id => hooks.find? fun hook => hook.id == id
  | .Local hooks, id => hooks.find? fun hook => hook.id == id
  | .Meta, _ => none

/-- `impl Display for Repo` (lines 87-95): `url@rev` for remote repositories,
`"local"` for local ones, `"meta"` for meta. -/
def Repo.display : Repo → String
  | .Remote _ url rev _ => url ++ "@" ++ rev
  | .Local _ => "local"
  | .Meta => "meta"

/-- Modelled from the spec (§4.2, §6): the external collaborators `hook.rs`
calls out to — URL parsing, manifest reading, and the repository `Store` —
none of which are among the sources.  Each is an oracle returning a result or
an error message. -/
structure Env where
  parse_url : String → Except String Url
  read_manifest : PathBuf → Except String (List ManifestHook)
  prepare_remote_repo : ConfigRemoteRepo → Option (List String) → Except String PathBuf
  prepare_local_repo : ManifestHook → Option (List String) → Except String PathBuf

/-- `Repo::remote` (lines 50-65): parse the url, join `MANIFEST_FILE` onto the
path, read the manifest, and build the `Remote` variant.  The source shadows
`path` with the manifest-file path before storing it; the model keeps that
behaviour. -/
def Repo.remote (env : Env) (url rev path : String) : Except Error Repo := do
  let u ← (env.parse_url url).mapError Error.InvalidUrl
  let manifestPath := path ++ "/" ++ MANIFEST_FILE
  let hooks ← (env.read_manifest manifestPath).mapError Error.ReadConfig
  pure (.Remote manifestPath u rev hooks)

/-- `HookBuilder` (lines 212-215): a source label plus the manifest hook being
resolved. -/
structure HookBuilder where
  src : String
  config : ManifestHook

/-- One arm of the `update_if_some!` macro (lines 224-232): replace the base
field when the override field is present, keep it otherwise.  The macro's
assignments touch pairwise-distinct fields, so the simultaneous record update
in `HookBuilder.update` is equivalent to its sequential assignments. -/
def updateField {α : Type} (over base : Option α) : Option α :=
  if over.isSome then over else base

/-- `HookBuilder::update` (lines 223-265): apply the project-level override to
the manifest hook, field by field; `name`, `entry` and `language` are mandatory
on the manifest side and hence unwrapped when present in the override. -/
def HookBuilder.update (b : HookBuilder) (config : ConfigRemoteHook) : HookBuilder :=
  { b with config := { b.config with
      «alias» := updateField config.alias b.config.alias
      files := updateField config.files b.config.files
      exclude := updateField config.exclude b.config.exclude
      types := updateField config.types b.config.types
      types_or := updateField config.types_or b.config.types_or
      exclude_types := updateField config.exclude_types b.config.exclude_types
      additional_dependencies :=
        updateField config.additional_dependencies b.config.additional_dependencies
      args := updateField config.args b.config.args
      always_run := updateField config.always_run b.config.always_run
      fail_fast := updateField config.fail_fast b.config.fail_fast
      pass_filenames := updateField config.pass_filenames b.config.pass_filenames
      description := updateField config.description b.config.description
      language_version := updateField config.language_version b.config.language_version
      log_file := updateField config.log_file b.config.log_file
      require_serial := updateField config.require_serial b.config.require_serial
      stages := updateField config.stages b.config.stages
      verbose := updateField config.verbose b.config.verbose
      minimum_pre_commit_version :=
        updateField config.minimum_pre_commit_version b.config.minimum_pre_commit_version
      name := match config.name with | some n => n | none => b.config.name
      entry := match config.entry with | some e => e | none => b.config.entry
      language := match config.language with | some l => l | none => b.config.language } }

/-- `HookBuilder::combine` (lines 268-283): if `language_version` is still
absent take the project's per-language default, and if still absent the
language's built-in default; if `stages` is still absent take the project's
default stages. -/
def HookBuilder.combine (b : HookBuilder) (config : ConfigWire) : HookBuilder :=
  let language := b.config.language
  let lv1 :=
    if b.config.language_version.isNone then
      config.default_language_version.bind fun m => lookupDefaultVersion m language
    else b.config.language_version
  let lv2 := if lv1.isNone then some language.default_version else lv1
  let stages := if b.config.stages.isNone then config.default_stages else b.config.stages
  { b with config := { b.config with language_version := lv2, stages := stages } }

/-- `HookBuilder::fill_in_defaults` (lines 286-299): `get_or_insert` each
still-absent optional field with its built-in default. -/
def HookBuilder.fill_in_defaults (b : HookBuilder) : HookBuilder :=
  { b with config := { b.config with
      language_version := b.config.language_version.or (some DEFAULT_VERSION)
      types := b.config.types.or (some ["file"])
      always_run := b.config.always_run.or (some false)
      fail_fast := b.config.fail_fast.or (some false)
      pass_filenames := b.config.pass_filenames.or (some true)
      require_serial := b.config.require_serial.or (some false)
      verbose := b.config.verbose.or (some false)
      stages := b.config.stages.or (some Stage.value_variants) } }

/-- The `warn_user!` message of `HookBuilder::check` for `language_version`
(lines 307-310). -/
def warnLanguageVersionMsg (l : Language) : String :=
  "Language " ++ l.name ++ " does not need environment, but language_version is set"

/-- The `warn_user!` message of `HookBuilder::check` for
`additional_dependencies` (lines 314-317). -/
def warnAdditionalDepsMsg (l : Language) : String :=
  "Language " ++ l.name ++ " does not need environment, but additional_dependencies is set"

/-- `HookBuilder::check` (lines 302-320): the list of user warnings emitted.
The source prints them to stderr and returns `()`; the model returns them so
theorems can talk about exactly which warnings fire. -/
def HookBuilder.check (b : HookBuilder) : List String :=
  let language := b.config.language
  if !language.need_install then
    (if b.config.language_version.isSome then [warnLanguageVersionMsg language] else []) ++
      (if b.config.additional_dependencies.isSome then [warnAdditionalDepsMsg language] else [])
  else []

/-- The fully resolved `Hook` (lines 359-386). -/
structure Hook where
  src : String
  path : Option PathBuf
  id : String
  name : String
  entry : String
  language : Language
  «alias» : Option String
  files : Option String
  exclude : Option String
  types : List String
  types_or : Option (List String)
  exclude_types : Option (List String)
  additional_dependencies : Option (List String)
  args : Option (List String)
  always_run : Bool
  fail_fast : Bool
  pass_filenames : Bool
  description : Option String
  language_version : String
  log_file : Option String
  require_serial : Bool
  stages : List Stage
  verbose : Bool
  minimum_pre_commit_version : Option String
deriving DecidableEq

/-- `HookBuilder::build` (lines 323-356): run `fill_in_defaults`, then unwrap
every required field.  Each `.expect(..)` panic of the source is embedded as
`Option` bind, so a `none` result marks the abort-on-unset-field branches.
The source also calls `check` here; `check` only writes warnings to stderr, so
the returned value does not depend on it and the model keeps
`HookBuilder.check` separate. -/
def HookBuilder.build (b : HookBuilder) : Option Hook :=
  let b := b.fill_in_defaults
  do
    let types ← b.config.types
    let always_run ← b.config.always_run
    let fail_fast ← b.config.fail_fast
    let pass_filenames ← b.config.pass_filenames
    let language_version ← b.config.language_version
    let require_serial ← b.config.require_serial
    let stages ← b.config.stages
    let verbose ← b.config.verbose
    pure { src := b.src
           path := none
           id := b.config.id
           name := b.config.name
           entry := b.config.entry
           language := b.config.language
           «alias» := b.config.alias
           files := b.config.files
           exclude := b.config.exclude
           types := types
           types_or := b.config.types_or
           exclude_types := b.config.exclude_types
           additional_dependencies := b.config.additional_dependencies
           args := b.config.args
           always_run := always_run
           fail_fast := fail_fast
           pass_filenames := pass_filenames
           description := b.config.description
           language_version := language_version
           log_file := b.config.log_file
           require_serial := require_serial
           stages := stages
           verbose := verbose
           minimum_pre_commit_version := b.config.minimum_pre_commit_version }

/-- Placeholder hook used only to totalize `HookBuilder.buildD`; never reached,
by `build_isSome`. -/
def Hook.fallback : Hook :=
  { src := "", path := none, id := "", name := "", entry := "", language := .system
    «alias» := none, files := none, exclude := none, types := [], types_or := none
    exclude_types := none, additional_dependencies := none, args := none
    always_run := false, fail_fast := false, pass_filenames := true, description := none
    language_version := "", log_file := none, require_serial := false, stages := []
    verbose := false, minimum_pre_commit_version := none }

/-- Total version of `build`, used where the source relies on `build` never
panicking. -/
def HookBuilder.buildD (b : HookBuilder) : Hook :=
  b.build.getD Hook.fallback

/-- `Hook::with_path` (lines 417-420). -/
def Hook.with_path (h : Hook) (path : PathBuf) : Hook :=
  { h with path := some path }

/-- `Hook::new_local` (lines 410-415): build from a `"local"` source label and
assign the given path. -/
def Hook.new_local (config : ManifestHook) (path : Option PathBuf) : Hook :=
  { (HookBuilder.mk "local" config).buildD with path := path }

/-- `Hook::installed` (lines 441-447): unconditionally `true` for languages
that need no environment; the environment check for the others is not yet
implemented and returns `false`. -/
def Hook.installed (h : Hook) : Bool :=
  if !h.language.need_install then true else false

/-- The body of the remote-hook loop of `Project::hooks` (lines 146-159):
look the override's id up in the loaded manifest — a missing id is a fatal
`HookNotFound` naming the id and the repo descriptor — then resolve the hook
through `update`, `combine` and `build`. -/
def resolveRemoteHook (repo : Repo) (cfg : ConfigWire) (hook_config : ConfigRemoteHook) :
    Except Error Hook :=
  match repo.get_hook hook_config.id with
  | none => .error (.HookNotFound hook_config.id repo.display)
  | some manifest_hook =>
      .ok (((HookBuilder.mk repo.display manifest_hook).update hook_config).combine cfg).buildD

/-- A deferred second-stage install task of `Project::hooks` (lines 161-168):
the repo config, the dependency set, and the hook awaiting its path. -/
abbrev Pending := ConfigRemoteRepo × List String × Hook

/-- The per-repo part of phase one of `Project::hooks` (lines 126-143): the
store prepares the repo (`prepare_remote_repo` with no dependency set) and the
manifest is loaded by `Repo::remote`. -/
def loadRemote (env : Env) (rc : ConfigRemoteRepo) : Except Error (PathBuf × Repo) := do
  let repo_path ← (env.prepare_remote_repo rc none).mapError Error.Store
  let repo ← Repo.remote env rc.repo rc.rev repo_path
  pure (repo_path, repo)

/-- One iteration of the remote-hook loop (lines 146-172): resolve the
override; a hook with `additional_dependencies` present is deferred to the
second stage, any other is appended immediately with the shared repo path. -/
def remoteHookStep (repo : Repo) (cfg : ConfigWire) (rc : ConfigRemoteRepo) (repo_path : PathBuf)
    (acc : List Hook × List Pending) (hc : ConfigRemoteHook) :
    Except Error (List Hook × List Pending) := do
  let hook ← resolveRemoteHook repo cfg hc
  match hook.additional_dependencies with
  | some deps => pure (acc.1, acc.2 ++ [(rc, deps, hook)])
  | none => pure (acc.1 ++ [hook.with_path repo_path], acc.2)

/-- Processing of one completed remote-repo task (lines 135-172): load the
repo, then fold the remote-hook loop over the repo's declared overrides. -/
def prepareRemoteRepoHooks (env : Env) (cfg : ConfigWire) (rc : ConfigRemoteRepo) :
    Except Error (List Hook × List Pending) := do
  let (repo_path, repo) ← loadRemote env rc
  rc.hooks.foldlM (remoteHookStep repo cfg rc repo_path) ([], [])

/-- One second-stage task (lines 165-168): prepare the repo again with the
specific dependency set and attach the resulting path to the hook. -/
def runPending (env : Env) (pt : Pending) : Except Error Hook :=
  ((env.prepare_remote_repo pt.1 (some pt.2.1)).mapError Error.Store).map pt.2.2.with_path

/-- One iteration of the local-hook loop (lines 193-206): a hook whose
language needs no environment is appended with no path and no store call;
otherwise the store prepares a local repo for it. -/
def prepareLocalHook (env : Env) (hook : ManifestHook) : Except Error Hook :=
  if hook.language.need_install then
    ((env.prepare_local_repo hook hook.additional_dependencies).mapError Error.Store).map
      fun path => Hook.new_local hook (some path)
  else .ok (Hook.new_local hook none)

/-- The remote repository entries of a configuration, in declared order
(lines 124-133 submit exactly these as tasks). -/
def remoteConfigs (cfg : ConfigWire) : List ConfigRemoteRepo :=
  cfg.repos.filterMap fun r => match r with | .Remote rc => some rc | _ => none

/-- The local hook entries of a configuration, in declared order
(lines 181-192). -/
def localHookConfigs (cfg : ConfigWire) : List ManifestHook :=
  (cfg.repos.filterMap fun r => match r with | .Local lr => some lr.hooks | _ => none).flatten

/-- Accumulation of one completed remote-repo task's results into the shared
`hooks` vector and the pending second-stage queue (lines 135-172). -/
def repoStep (env : Env) (cfg : ConfigWire) (acc : List Hook × List Pending)
    (rc : ConfigRemoteRepo) : Except Error (List Hook × List Pending) := do
  let (hs, ps) ← prepareRemoteRepoHooks env cfg rc
  pure (acc.1 ++ hs, acc.2 ++ ps)

/-- `Project::hooks` (lines 116-209).  The completion orders of the two
`FuturesUnordered` queues are the explicit schedules `sched1` (remote-repo
tasks) and `sched2` (second-stage install tasks); the store and the other
collaborators are the `Env` oracles.  Phase one drains the repo tasks in
completion order, pushing dependency-free hooks immediately and queueing the
others; phase two drains the second-stage tasks; phase three processes local
hooks sequentially.  Any failure aborts the whole preparation. -/
def Project.hooks (env : Env) (cfg : ConfigWire)
    (sched1 : List ConfigRemoteRepo → List ConfigRemoteRepo)
    (sched2 : List Pending → List Pending) : Except Error (List Hook) := do
  let (immediate, pending) ← (sched1 (remoteConfigs cfg)).foldlM (repoStep env cfg) ([], [])
  let withDeps ← (sched2 pending).mapM (runPending env)
  let locals ← (localHookConfigs cfg).mapM (prepareLocalHook env)
  pure (immediate ++ withDeps ++ locals)

/-! Python backend (`src/languages/python/python.rs`), `Python::run`
(lines 88-141).  `run_by_batch` is not among the sources, so the run is
modelled over the list of per-batch process outputs it produces. -/

/-- The outcome of one batch invocation as the process collaborator reports
it: `status.code()` (absent when killed by a signal), stdout and stderr. -/
structure ProcessOutput where
  code : Option Int
  stdout : List Nat
  stderr : List Nat
deriving DecidableEq

/-- The per-batch closure of `Python::run` (lines 110-127): the invocation's
stdout buffer extended with its stderr, and `status.code().unwrap_or(1)`. -/
def batchResult (o : ProcessOutput) : Int × List Nat :=
  (o.code.getD 1, o.stdout ++ o.stderr)

/-- The result-collection loop of `Python::run` (lines 131-138): bitwise-OR
the exit codes, concatenate the outputs. -/
def pythonCollect (results : List (Int × List Nat)) : Int × List Nat :=
  results.foldl (fun acc r => (Int.lor acc.1 r.1, acc.2 ++ r.2)) (0, [])

/-- `Python::run` (lines 88-141), abstracted over the per-batch process
outputs that `run_by_batch` delivers. -/
def Python.run (outputs : List ProcessOutput) : Int × List Nat :=
  pythonCollect (outputs.map batchResult)

/-! Concrete configurations and environments used to evaluate the theorems on
explicit inputs. -/

/-- A manifest hook that carries `additional_dependencies`. -/
def mhWithDeps : ManifestHook :=
  { id := "a", name := "A", entry := "a-entry", language := .python
    additional_dependencies := some ["pkgA"] }

/-- A manifest hook without `additional_dependencies`. -/
def mhNoDeps : ManifestHook :=
  { id := "b", name := "B", entry := "b-entry", language := .python }

/-- A remote repo declaring the dependency-carrying hook before the plain one. -/
def rcSched : ConfigRemoteRepo :=
  { repo := "https://example.com/repo", rev := "v1", hooks := [{ id := "a" }, { id := "b" }] }

/-- An environment whose store answers every request and whose manifest holds
`mhWithDeps` and `mhNoDeps`; dependency-specific repo preparations land on a
path distinct from the shared one. -/
def envSched : Env :=
  { parse_url := fun s => .ok s
    read_manifest := fun _ => .ok [mhWithDeps, mhNoDeps]
    prepare_remote_repo := fun _ deps => .ok (if deps.isSome then "deps-path" else "shared-path")
    prepare_local_repo := fun _ _ => .ok "local-path" }

/-- A project configuration with the single remote repo `rcSched`. -/
def cfgSched : ConfigWire := { repos := [.Remote rcSched] }

/-- The computed phase-one output for `rcSched`. -/
def prSched : List Hook × List Pending :=
  (prepareRemoteRepoHooks envSched cfgSched rcSched).toOption.getD ([], [])

/-- The immediately-appended hooks of `prSched`. -/
def hsSched : List Hook := prSched.1

/-- The deferred second-stage tasks of `prSched`. -/
def psSched : List Pending := prSched.2

/-- A manifest hook with no dependencies declared. -/
def mhPlain : ManifestHook :=
  { id := "c", name := "C", entry := "c-entry", language := .python }

/-- A remote repo whose override sets `additional_dependencies` to the empty
list — present but empty. -/
def rcEmptyDeps : ConfigRemoteRepo :=
  { repo := "https://example.com/r2", rev := "v2"
    hooks := [{ id := "c", additional_dependencies := some [] }] }

/-- Environment for the empty-dependency-list scenario. -/
def envEmptyDeps : Env :=
  { parse_url := fun s => .ok s
    read_manifest := fun _ => .ok [mhPlain]
    prepare_remote_repo := fun _ deps => .ok (if deps.isSome then "deps-path" else "shared-path")
    prepare_local_repo := fun _ _ => .ok "local-path" }

/-- Configuration with the single remote repo `rcEmptyDeps`. -/
def cfgEmptyDeps : ConfigWire := { repos := [.Remote rcEmptyDeps] }

/-- A manifest hook in a language that needs no environment, with
`language_version` unset everywhere. -/
def mhNoEnv : ManifestHook :=
  { id := "w", name := "W", entry := "w-entry", language := .system }

/-- An override that sets nothing. -/
def ohNoEnv : ConfigRemoteHook := { id := "w" }

/-- A configuration with no repos and no defaults. -/
def cfgEmpty : ConfigWire := { repos := [] }

/-- The manifest hook actually published by the repo of the missing-id
scenario. -/
def mhReal : ManifestHook :=
  { id := "real-hook", name := "Real", entry := "real-entry", language := .python }

/-- A remote repo whose override references an id absent from the manifest. -/
def rcMissing : ConfigRemoteRepo :=
  { repo := "https://example.com/r5", rev := "v5", hooks := [{ id := "missing-hook" }] }

/-- Environment for the missing-id scenario: the manifest defines only
`real-hook`. -/
def envMissing : Env :=
  { parse_url := fun s => .ok s
    read_manifest := fun _ => .ok [mhReal]
    prepare_remote_repo := fun _ deps => .ok (if deps.isSome then "deps-path" else "shared-path")
    prepare_local_repo := fun _ _ => .ok "local-path" }

/-- Configuration with the single remote repo `rcMissing`. -/
def cfgMissing : ConfigWire := { repos := [.Remote rcMissing] }

/-- The repo value loaded for `rcMissing`. -/
def repoMissing : Repo :=
  ((loadRemote envMissing rcMissing).toOption.getD ("", .Meta)).2

/-- A local hook in a language that needs no environment. -/
def mhLocalScript : ManifestHook :=
  { id := "l", name := "L", entry := "echo hi", language := .script }

/-- A configuration consisting of meta entries only. -/
def cfgMeta : ConfigWire := { repos := [.Meta, .Meta] }

/-- Whether a configuration entry is the `Meta` variant (`Project::hooks`
matches only the `Remote` and `Local` variants, so these are skipped). -/
def isMeta : ConfigRepo → Bool
  | .Meta => true
  | _ => false

/-! General helper lemmas. -/

/-- Peel one `Except` bind that succeeded. -/
theorem exceptBind_ok {ε α β : Type} {x : Except ε α} {f : α → Except ε β} {b : β}
    (h : (x >>= f) = .ok b) : ∃ a, x = .ok a ∧ f a = .ok b := by
  cases x with
  | error e => exact absurd h (by simp [Bind.bind, Except.bind])
  | ok a => exact ⟨a, rfl, h⟩

/-- A successful `Except` bind on a known-success head reduces. -/
theorem exceptBind_ok_eq {ε α β : Type} {x : Except ε α} {f : α → Except ε β} {a : α}
    (h : x = .ok a) : (x >>= f) = f a := by
  subst h; rfl

/-- An `Except` bind on a known-error head is that error. -/
theorem exceptBind_error_eq {ε α β : Type} {x : Except ε α} {f : α → Except ε β} {e : ε}
    (h : x = .error e) : (x >>= f) = .error e := by
  subst h; rfl

/-- `Option.or` with a `some` fallback is `some` of `getD`. -/
theorem or_some {α : Type} (x : Option α) (d : α) : x.or (some d) = some (x.getD d) := by
  cases x <;> rfl

/-- `build` never reaches its abort branches: it always yields the hook whose
required fields were filled with their built-in defaults. -/
theorem HookBuilder.build_spec (b : HookBuilder) :
    b.build = some
      { src := b.src, path := none, id := b.config.id, name := b.config.name
        entry := b.config.entry, language := b.config.language
        «alias» := b.config.alias, files := b.config.files, exclude := b.config.exclude
        types := b.config.types.getD ["file"], types_or := b.config.types_or
        exclude_types := b.config.exclude_types
        additional_dependencies := b.config.additional_dependencies
        args := b.config.args, always_run := b.config.always_run.getD false
        fail_fast := b.config.fail_fast.getD false
        pass_filenames := b.config.pass_filenames.getD true
        description := b.config.description
        language_version := b.config.language_version.getD DEFAULT_VERSION
        log_file := b.config.log_file
        require_serial := b.config.require_serial.getD false
        stages := b.config.stages.getD Stage.value_variants
        verbose := b.config.verbose.getD false
        minimum_pre_commit_version := b.config.minimum_pre_commit_version } := by
  simp [HookBuilder.build, HookBuilder.fill_in_defaults, or_some]

/-- `buildD` agrees with `build`. -/
theorem HookBuilder.buildD_spec (b : HookBuilder) : b.build = some b.buildD := by
  rw [HookBuilder.buildD, HookBuilder.build_spec]; rfl

/-- An `isNone`-guarded choice is `Option.or`. -/
theorem ifIsNone_eq_or {α : Type} (x y : Option α) : (if x.isNone then y else x) = x.or y := by
  cases x <;> rfl

/-- `some` of `getD` recovers an option known to be `some`. -/
theorem some_getD_of_isSome {α : Type} (x : Option α) (d : α) (h : x.isSome = true) :
    some (x.getD d) = x := by
  cases x with
  | none => exact absurd h (by simp)
  | some v => rfl

/-! Claim theorems. -/

/-- C2 (confirmed): applying a project-level override with `HookBuilder::update`
replaces exactly those manifest fields whose override field is present and
leaves every field unchanged when the override field is absent — for every
field (the mandatory key `id` is never touched). -/
theorem claim_C2 (s : String) (m : ManifestHook) (o : ConfigRemoteHook) :
    (((HookBuilder.mk s m).update o).config.id = m.id)
    ∧ (((HookBuilder.mk s m).update o).config.name = o.name.getD m.name)
    ∧ (((HookBuilder.mk s m).update o).config.entry = o.entry.getD m.entry)
    ∧ (((HookBuilder.mk s m).update o).config.language = o.language.getD m.language)
    ∧ (((HookBuilder.mk s m).update o).config.alias = (o.alias.map some).getD m.alias)
    ∧ (((HookBuilder.mk s m).update o).config.files = (o.files.map some).getD m.files)
    ∧ (((HookBuilder.mk s m).update o).config.exclude = (o.exclude.map some).getD m.exclude)
    ∧ (((HookBuilder.mk s m).update o).config.types = (o.types.map some).getD m.types)
    ∧ (((HookBuilder.mk s m).update o).config.types_or = (o.types_or.map some).getD m.types_or)
    ∧ (((HookBuilder.mk s m).update o).config.exclude_types =
        (o.exclude_types.map some).getD m.exclude_types)
    ∧ (((HookBuilder.mk s m).update o).config.additional_dependencies =
        (o.additional_dependencies.map some).getD m.additional_dependencies)
    ∧ (((HookBuilder.mk s m).update o).config.args = (o.args.map some).getD m.args)
    ∧ (((HookBuilder.mk s m).update o).config.always_run =
        (o.always_run.map some).getD m.always_run)
    ∧ (((HookBuilder.mk s m).update o).config.fail_fast =
        (o.fail_fast.map some).getD m.fail_fast)
    ∧ (((HookBuilder.mk s m).update o).config.pass_filenames =
        (o.pass_filenames.map some).getD m.pass_filenames)
    ∧ (((HookBuilder.mk s m).update o).config.description =
        (o.description.map some).getD m.description)
    ∧ (((HookBuilder.mk s m).update o).config.language_version =
        (o.language_version.map some).getD m.language_version)
    ∧ (((HookBuilder.mk s m).update o).config.log_file =
        (o.log_file.map some).getD m.log_file)
    ∧ (((HookBuilder.mk s m).update o).config.require_serial =
        (o.require_serial.map some).getD m.require_serial)
    ∧ (((HookBuilder.mk s m).update o).config.stages = (o.stages.map some).getD m.stages)
    ∧ (((HookBuilder.mk s m).update o).config.verbose = (o.verbose.map some).getD m.verbose)
    ∧ (((HookBuilder.mk s m).update o).config.minimum_pre_commit_version =
        (o.minimum_pre_commit_version.map some).getD m.minimum_pre_commit_version)
    ∧ (((HookBuilder.mk s m).update o).src = s) := by
  obtain ⟨oid, oname, oentry, olanguage, oal, ofiles, oexclude, otypes, otypesor, oexcl,
    odeps, oargs, oalways, ofailfast, opass, odesc, olv, olog, oreq, ostages, overb, omin⟩ := o
  refine ⟨rfl, ?_, ?_, ?_, ?_, ?_, ?_, ?_, ?_, ?_, ?_, ?_, ?_, ?_, ?_, ?_, ?_, ?_, ?_, ?_,
    ?_, ?_, rfl⟩
  · cases oname <;> rfl
  · cases oentry <;> rfl
  · cases olanguage <;> rfl
  · cases oal <;> rfl
  · cases ofiles <;> rfl
  · cases oexclude <;> rfl
  · cases otypes <;> rfl
  · cases otypesor <;> rfl
  · cases oexcl <;> rfl
  · cases odeps <;> rfl
  · cases oargs <;> rfl
  · cases oalways <;> rfl
  · cases ofailfast <;> rfl
  · cases opass <;> rfl
  · cases odesc <;> rfl
  · cases olv <;> rfl
  · cases olog <;> rfl
  · cases oreq <;> rfl
  · cases ostages <;> rfl
  · cases overb <;> rfl
  · cases omin <;> rfl

/-- An `Option.or` chain ending in a `some` fallback is always `some`. -/
theorem or_or_some_isSome {α : Type} (x y : Option α) (d : α) :
    (x.or (y.or (some d))).isSome = true := by
  cases x <;> cases y <;> rfl

/-- The `language_version` produced by `combine` after `update`, as an
`Option.or` fallback chain. -/
theorem combine_language_version (s : String) (m : ManifestHook) (o : ConfigRemoteHook)
    (cfg : ConfigWire) :
    (((HookBuilder.mk s m).update o).combine cfg).config.language_version =
      ((updateField o.language_version m.language_version).or
        ((cfg.default_language_version.bind fun mp =>
            lookupDefaultVersion mp (o.language.getD m.language)).or
          (some (o.language.getD m.language).default_version))) := by
  obtain ⟨mid, mname, mentry, mlanguage, mal, mfiles, mexclude, mtypes, mtypesor, mexcl,
    mdeps, margs, malways, mfailfast, mpass, mdesc, mlv, mlog, mreq, mstages, mverb, mmin⟩ := m
  obtain ⟨oid, oname, oentry, olanguage, oal, ofiles, oexclude, otypes, otypesor, oexcl,
    odeps, oargs, oalways, ofailfast, opass, odesc, olv, olog, oreq, ostages, overb, omin⟩ := o
  obtain ⟨repos, dlv, dstages⟩ := cfg
  cases olv with
  | some v => rfl
  | none =>
    cases mlv with
    | some w => rfl
    | none =>
      cases dlv with
      | none => rfl
      | some mp =>
        cases olanguage with
        | some l => exact ifIsNone_eq_or (lookupDefaultVersion mp l) (some l.default_version)
        | none =>
          exact ifIsNone_eq_or (lookupDefaultVersion mp mlanguage)
            (some mlanguage.default_version)

/-- C3 (confirmed): after the override and `HookBuilder::combine`, the
`language_version` is never unset — it is the override-over-manifest value if
present, else the project's per-language default, else the language's built-in
default version — and the built hook carries exactly that version. -/
theorem claim_C3 (s : String) (m : ManifestHook) (o : ConfigRemoteHook) (cfg : ConfigWire) :
    (((HookBuilder.mk s m).update o).combine cfg).config.language_version =
      ((updateField o.language_version m.language_version).or
        ((cfg.default_language_version.bind fun mp =>
            lookupDefaultVersion mp (o.language.getD m.language)).or
          (some (o.language.getD m.language).default_version)))
    ∧ ((((HookBuilder.mk s m).update o).combine cfg).config.language_version.isSome = true)
    ∧ (some ((((HookBuilder.mk s m).update o).combine cfg).buildD.language_version) =
        (((HookBuilder.mk s m).update o).combine cfg).config.language_version) := by
  have h1 := combine_language_version s m o cfg
  have h2 : (((HookBuilder.mk s m).update o).combine cfg).config.language_version.isSome
      = true := by
    rw [h1]; exact or_or_some_isSome _ _ _
  refine ⟨h1, h2, ?_⟩
  have hb : (((HookBuilder.mk s m).update o).combine cfg).buildD.language_version =
      (((HookBuilder.mk s m).update o).combine cfg).config.language_version.getD
        DEFAULT_VERSION := by
    simp only [HookBuilder.buildD, HookBuilder.build_spec, Option.getD_some]
  rw [hb]
  exact some_getD_of_isSome _ _ h2

/-- C4 (confirmed): `HookBuilder::build` always returns a hook — every required
field holds a concrete value because `fill_in_defaults` runs first and fills
every still-absent field, so the abort-on-unset-field branches are
unreachable. -/
theorem claim_C4 (b : HookBuilder) :
    (∃ h, b.build = some h)
    ∧ b.fill_in_defaults.config.types.isSome = true
    ∧ b.fill_in_defaults.config.always_run.isSome = true
    ∧ b.fill_in_defaults.config.fail_fast.isSome = true
    ∧ b.fill_in_defaults.config.pass_filenames.isSome = true
    ∧ b.fill_in_defaults.config.require_serial.isSome = true
    ∧ b.fill_in_defaults.config.verbose.isSome = true
    ∧ b.fill_in_defaults.config.stages.isSome = true
    ∧ b.fill_in_defaults.config.language_version.isSome = true := by
  refine ⟨⟨_, b.build_spec⟩, ?_, ?_, ?_, ?_, ?_, ?_, ?_, ?_⟩ <;>
    simp [HookBuilder.fill_in_defaults, or_some]

/-- The two warning texts of `check` are distinct for every language. -/
theorem warn_msgs_ne (l : Language) : warnAdditionalDepsMsg l ≠ warnLanguageVersionMsg l := by
  cases l <;> decide

/-- C7 (counterexample): a hook whose language needs no environment and whose
`language_version` is set nowhere — not in the manifest, not in the override,
not in the project defaults — still triggers the `language_version` warning at
validation time, because `combine` has already filled the field with the
built-in default before `build` runs `check`.  This refutes "not when the
field was filled in by defaulting". -/
theorem claim_C7_counterexample :
    mhNoEnv.language_version = none
    ∧ ohNoEnv.language_version = none
    ∧ cfgEmpty.default_language_version = none
    ∧ mhNoEnv.language.need_install = false
    ∧ (((HookBuilder.mk "r" mhNoEnv).update ohNoEnv).combine cfgEmpty).check
        = [warnLanguageVersionMsg .system] :=
  ⟨rfl, rfl, rfl, rfl, rfl⟩

/-- C7 (amended, corrected): validation never aborts (`build` still returns a
hook), and at `check` time the `additional_dependencies` warning fires exactly
when the language needs no environment and the field is present from manifest
or override; the `language_version` warning, however, fires exactly when the
language needs no environment — explicit user setting is not distinguished,
since `combine` has always filled `language_version` before `build` calls
`check`. -/
theorem claim_C7_amended (s : String) (m : ManifestHook) (o : ConfigRemoteHook)
    (cfg : ConfigWire) :
    (warnLanguageVersionMsg (((HookBuilder.mk s m).update o).combine cfg).config.language
        ∈ (((HookBuilder.mk s m).update o).combine cfg).check
      ↔ (((HookBuilder.mk s m).update o).combine cfg).config.language.need_install = false)
    ∧ (warnAdditionalDepsMsg (((HookBuilder.mk s m).update o).combine cfg).config.language
        ∈ (((HookBuilder.mk s m).update o).combine cfg).check
      ↔ ((((HookBuilder.mk s m).update o).combine cfg).config.language.need_install = false
          ∧ (updateField o.additional_dependencies m.additional_dependencies).isSome = true))
    ∧ (((HookBuilder.mk s m).update o).combine cfg).build.isSome = true := by
  have hlv : (((HookBuilder.mk s m).update o).combine cfg).config.language_version.isSome
      = true := by
    rw [combine_language_version]; exact or_or_some_isSome _ _ _
  have hdeps : (((HookBuilder.mk s m).update o).combine cfg).config.additional_dependencies
      = updateField o.additional_dependencies m.additional_dependencies := rfl
  refine ⟨?_, ?_, ?_⟩
  · cases hni : (((HookBuilder.mk s m).update o).combine cfg).config.language.need_install with
    | true => simp [HookBuilder.check, hni]
    | false => simp [HookBuilder.check, hni, hlv]
  · cases hni : (((HookBuilder.mk s m).update o).combine cfg).config.language.need_install with
    | true => simp [HookBuilder.check, hni]
    | false =>
      cases hd : (updateField o.additional_dependencies m.additional_dependencies).isSome with
      | true => simp [HookBuilder.check, hni, hlv, hdeps, hd]
      | false =>
        simp [HookBuilder.check, hni, hlv, hdeps, hd,
          warn_msgs_ne (((HookBuilder.mk s m).update o).combine cfg).config.language]
  · rw [HookBuilder.build_spec]; rfl

/-- `Nat` bitwise or is zero exactly when both operands are zero. -/
theorem nat_lor_eq_zero_iff (m n : Nat) : m ||| n = 0 ↔ m = 0 ∧ n = 0 := by
  constructor
  · intro h
    constructor
    · refine Nat.zero_of_testBit_eq_false fun i => ?_
      have ht := congrArg (fun k => Nat.testBit k i) h
      simp only [Nat.testBit_lor, Nat.zero_testBit] at ht
      exact (Bool.or_eq_false_iff.mp ht).1
    · refine Nat.zero_of_testBit_eq_false fun i => ?_
      have ht := congrArg (fun k => Nat.testBit k i) h
      simp only [Nat.testBit_lor, Nat.zero_testBit] at ht
      exact (Bool.or_eq_false_iff.mp ht).2
  · rintro ⟨rfl, rfl⟩; rfl

/-- `Int` bitwise or is zero exactly when both operands are zero. -/
theorem int_lor_eq_zero_iff (a b : Int) : Int.lor a b = 0 ↔ a = 0 ∧ b = 0 := by
  cases a with
  | ofNat m =>
    cases b with
    | ofNat n =>
      simp only [Int.lor, Int.ofNat_eq_coe]
      constructor
      · intro h
        have hmn : m ||| n = 0 := by exact_mod_cast h
        obtain ⟨hm, hn⟩ := (nat_lor_eq_zero_iff m n).mp hmn
        exact ⟨by exact_mod_cast hm, by exact_mod_cast hn⟩
      · rintro ⟨hm, hn⟩
        have hm' : m = 0 := by exact_mod_cast hm
        have hn' : n = 0 := by exact_mod_cast hn
        subst hm'; subst hn'; rfl
    | negSucc n => simp [Int.lor]
  | negSucc m =>
    cases b with
    | ofNat n => simp [Int.lor]
    | negSucc n => simp [Int.lor]

/-- Folding `Int.lor` is zero exactly when the accumulator and every element
are zero. -/
theorem foldl_lor_eq_zero_iff (l : List Int) (a : Int) :
    l.foldl Int.lor a = 0 ↔ a = 0 ∧ ∀ c ∈ l, c = 0 := by
  induction l generalizing a with
  | nil => simp
  | cons x xs ih =>
    simp only [List.foldl_cons, ih, int_lor_eq_zero_iff, List.mem_cons]
    constructor
    · rintro ⟨⟨ha, hx⟩, hxs⟩
      exact ⟨ha, fun c hc => hc.elim (fun hcx => hcx ▸ hx) (hxs c)⟩
    · rintro ⟨ha, hall⟩
      exact ⟨⟨ha, hall x (Or.inl rfl)⟩, fun c hc => hall c (Or.inr hc)⟩

/-- The collection loop of `Python::run` with a general accumulator. -/
theorem pythonCollect_go (rs : List (Int × List Nat)) (a : Int) (out : List Nat) :
    rs.foldl (fun acc r => (Int.lor acc.1 r.1, acc.2 ++ r.2)) (a, out)
      = ((rs.map Prod.fst).foldl Int.lor a, out ++ (rs.map Prod.snd).flatten) := by
  induction rs generalizing a out with
  | nil => simp
  | cons r rs ih => simp [List.foldl_cons, ih]

/-- The collection loop of `Python::run`: bitwise-OR of the codes, flat
concatenation of the outputs. -/
theorem pythonCollect_spec (rs : List (Int × List Nat)) :
    pythonCollect rs = ((rs.map Prod.fst).foldl Int.lor 0, (rs.map Prod.snd).flatten) := by
  simpa [pythonCollect] using pythonCollect_go rs 0 []

/-- C8 (confirmed): each batch's buffer is its stdout followed by its stderr, a
missing exit status normalizes to 1, the combined exit code is the bitwise OR
of all batch codes — zero exactly when every batch's code is zero — and the
combined output is the concatenation of the batch buffers. -/
theorem claim_C8 (outputs : List ProcessOutput) :
    Python.run outputs =
      ((outputs.map fun o => o.code.getD 1).foldl Int.lor 0,
        (outputs.map fun o => o.stdout ++ o.stderr).flatten)
    ∧ ((Python.run outputs).1 = 0 ↔ ∀ o ∈ outputs, o.code.getD 1 = 0)
    ∧ (∀ stdout stderr, batchResult ⟨none, stdout, stderr⟩ = (1, stdout ++ stderr)) := by
  have h1 : Python.run outputs =
      ((outputs.map fun o => o.code.getD 1).foldl Int.lor 0,
        (outputs.map fun o => o.stdout ++ o.stderr).flatten) := by
    have hf : (Prod.fst ∘ batchResult) = fun o : ProcessOutput => o.code.getD 1 :=
      funext fun o => rfl
    have hg : (Prod.snd ∘ batchResult) = fun o : ProcessOutput => o.stdout ++ o.stderr :=
      funext fun o => rfl
    simp [Python.run, pythonCollect_spec, List.map_map, hf, hg]
  refine ⟨h1, ?_, fun _ _ => rfl⟩
  rw [h1]
  simp [foldl_lor_eq_zero_iff]

/-- C9 (confirmed): a local hook whose language needs no environment is
prepared with no store interaction (the result is the same for every
environment), appended with no environment path, and `installed` is
unconditionally true for it. -/
theorem claim_C9 (env env' : Env) (mh : ManifestHook)
    (h : mh.language.need_install = false) :
    prepareLocalHook env mh = .ok (Hook.new_local mh none)
    ∧ prepareLocalHook env mh = prepareLocalHook env' mh
    ∧ (Hook.new_local mh none).path = none
    ∧ (Hook.new_local mh none).installed = true := by
  have hstep : ∀ e : Env, prepareLocalHook e mh = .ok (Hook.new_local mh none) := by
    intro e; simp [prepareLocalHook, h]
  have hlang : (Hook.new_local mh none).language = mh.language := by
    simp [Hook.new_local, HookBuilder.buildD, HookBuilder.build_spec]
  refine ⟨hstep env, (hstep env).trans (hstep env').symm, rfl, ?_⟩
  simp [Hook.installed, hlang, h]

/-- C9 witness: the script-language local hook on two concrete environments. -/
theorem claim_C9_witness :
    prepareLocalHook envSched mhLocalScript = .ok (Hook.new_local mhLocalScript none)
    ∧ prepareLocalHook envSched mhLocalScript = prepareLocalHook envMissing mhLocalScript
    ∧ (Hook.new_local mhLocalScript none).path = none
    ∧ (Hook.new_local mhLocalScript none).installed = true :=
  claim_C9 envSched envMissing mhLocalScript rfl

/-- Stripping `Meta` entries changes neither the remote nor the local entries
extracted from a repo list. -/
theorem filter_nonMeta_entries (repos : List ConfigRepo) :
    ((repos.filter fun r => !isMeta r).filterMap fun r =>
        match r with | .Remote rc => some rc | _ => none)
      = (repos.filterMap fun r => match r with | .Remote rc => some rc | _ => none)
    ∧ ((repos.filter fun r => !isMeta r).filterMap fun r =>
        match r with | .Local lr => some lr.hooks | _ => none)
      = (repos.filterMap fun r => match r with | .Local lr => some lr.hooks | _ => none) := by
  induction repos with
  | nil => exact ⟨rfl, rfl⟩
  | cons r rest ih =>
    obtain ⟨ih1, ih2⟩ := ih
    cases r with
    | Remote rc =>
      rw [List.filter_cons_of_pos (by rfl), List.filterMap_cons_some (by rfl),
        List.filterMap_cons_some (by rfl), List.filterMap_cons_none (by rfl),
        List.filterMap_cons_none (by rfl), ih1, ih2]
      exact ⟨rfl, rfl⟩
    | Local lr =>
      rw [List.filter_cons_of_pos (by rfl), List.filterMap_cons_none (by rfl),
        List.filterMap_cons_none (by rfl), List.filterMap_cons_some (by rfl),
        List.filterMap_cons_some (by rfl), ih1, ih2]
      exact ⟨rfl, rfl⟩
    | Meta =>
      rw [List.filter_cons_of_neg (by decide), List.filterMap_cons_none (by rfl),
        List.filterMap_cons_none (by rfl), ih1, ih2]
      exact ⟨rfl, rfl⟩

/-- C10 (confirmed): `Meta` repository entries are silently skipped by
`Project::hooks` — removing them changes nothing, and a configuration of only
`Meta` entries yields the empty hook list with no error. -/
theorem claim_C10 (env : Env) (cfg : ConfigWire)
    (sched1 : List ConfigRemoteRepo → List ConfigRemoteRepo)
    (sched2 : List Pending → List Pending)
    (hs1 : ∀ l, (sched1 l).Perm l) (hs2 : ∀ l, (sched2 l).Perm l) :
    Project.hooks env { cfg with repos := cfg.repos.filter fun r => !isMeta r } sched1 sched2
      = Project.hooks env cfg sched1 sched2
    ∧ ((∀ r ∈ cfg.repos, r = .Meta) → Project.hooks env cfg sched1 sched2 = .ok []) := by
  constructor
  · have hrem : remoteConfigs { cfg with repos := cfg.repos.filter fun r => !isMeta r }
        = remoteConfigs cfg := (filter_nonMeta_entries cfg.repos).1
    have hloc : localHookConfigs { cfg with repos := cfg.repos.filter fun r => !isMeta r }
        = localHookConfigs cfg := by
      simp only [localHookConfigs, (filter_nonMeta_entries cfg.repos).2]
    have hp : repoStep env { cfg with repos := cfg.repos.filter fun r => !isMeta r }
        = repoStep env cfg := rfl
    simp only [Project.hooks, hrem, hloc, hp]
  · intro hmeta
    have hrem0 : remoteConfigs cfg = [] := by
      simp only [remoteConfigs, List.filterMap_eq_nil_iff]
      intro r hr
      rw [hmeta r hr]
    have hloc0 : localHookConfigs cfg = [] := by
      have : (cfg.repos.filterMap fun r =>
          match r with | .Local lr => some lr.hooks | _ => none) = [] := by
        simp only [List.filterMap_eq_nil_iff]
        intro r hr
        rw [hmeta r hr]
      simp [localHookConfigs, this]
    have h1 : sched1 [] = [] := (hs1 []).eq_nil
    have h2 : sched2 [] = [] := (hs2 []).eq_nil
    simp only [Project.hooks, hrem0, hloc0, h1, List.foldlM_nil, pure_bind, h2,
      List.mapM_nil, List.nil_append, List.append_nil]
    rfl

/-- C10 witness: the meta-only configuration with identity schedules. -/
theorem claim_C10_witness :
    (Project.hooks envSched { cfgMeta with repos := cfgMeta.repos.filter fun r => !isMeta r }
        id id
      = Project.hooks envSched cfgMeta id id)
    ∧ Project.hooks envSched cfgMeta id id = .ok [] :=
  ⟨(claim_C10 envSched cfgMeta id id (fun l => List.Perm.refl l) (fun l => List.Perm.refl l)).1,
    (claim_C10 envSched cfgMeta id id (fun l => List.Perm.refl l)
      (fun l => List.Perm.refl l)).2 (by decide)⟩

/-- `mapError` succeeded, so the underlying computation succeeded. -/
theorem mapError_ok_inv {e e2 a : Type} {f : e → e2} {x : Except e a} {v : a}
    (h : x.mapError f = .ok v) : x = .ok v := by
  cases x with
  | error err => simp [Except.mapError] at h
  | ok w => simpa [Except.mapError] using h

/-- Resolution of an override found in the manifest. -/
theorem resolveRemoteHook_ok_of_found {repo : Repo} {cfg : ConfigWire}
    {hc : ConfigRemoteHook} {mh : ManifestHook} (h : repo.get_hook hc.id = some mh) :
    resolveRemoteHook repo cfg hc =
      .ok (((HookBuilder.mk repo.display mh).update hc).combine cfg).buildD := by
  simp [resolveRemoteHook, h]

/-- Resolution of an override missing from the manifest. -/
theorem resolveRemoteHook_error_of_missing {repo : Repo} {cfg : ConfigWire}
    {hc : ConfigRemoteHook} (h : repo.get_hook hc.id = none) :
    resolveRemoteHook repo cfg hc = .error (.HookNotFound hc.id repo.display) := by
  simp [resolveRemoteHook, h]

/-- Resolution only fails on a missing id, with exactly the `HookNotFound`
error naming the id and the repo descriptor. -/
theorem resolveRemoteHook_error_inv {repo : Repo} {cfg : ConfigWire}
    {hc : ConfigRemoteHook} {e : Error} (h : resolveRemoteHook repo cfg hc = .error e) :
    repo.get_hook hc.id = none ∧ e = .HookNotFound hc.id repo.display := by
  cases hm : repo.get_hook hc.id with
  | none =>
    rw [resolveRemoteHook_error_of_missing hm] at h
    injection h with h2
    exact ⟨rfl, h2.symm⟩
  | some mh => rw [resolveRemoteHook_ok_of_found hm] at h; cases h

/-- Resolution succeeded, so the id was found. -/
theorem resolveRemoteHook_ok_found {repo : Repo} {cfg : ConfigWire}
    {hc : ConfigRemoteHook} {hk : Hook} (h : resolveRemoteHook repo cfg hc = .ok hk) :
    (repo.get_hook hc.id).isSome = true := by
  cases hm : repo.get_hook hc.id with
  | none => rw [resolveRemoteHook_error_of_missing hm] at h; cases h
  | some mh => rfl

/-- One remote-hook iteration succeeded: the override resolved, and the hook
was either queued for the second stage (dependencies present) or pushed with
the shared path (dependencies absent). -/
theorem remoteHookStep_ok_inv {repo : Repo} {cfg : ConfigWire} {rc : ConfigRemoteRepo}
    {p : PathBuf} {acc acc2 : List Hook × List Pending} {hc : ConfigRemoteHook}
    (h : remoteHookStep repo cfg rc p acc hc = .ok acc2) :
    ∃ hook, resolveRemoteHook repo cfg hc = .ok hook ∧
      ((∃ deps, hook.additional_dependencies = some deps
          ∧ acc2 = (acc.1, acc.2 ++ [(rc, deps, hook)]))
        ∨ (hook.additional_dependencies = none
          ∧ acc2 = (acc.1 ++ [hook.with_path p], acc.2))) := by
  simp only [remoteHookStep] at h
  cases hr : resolveRemoteHook repo cfg hc with
  | error e => rw [exceptBind_error_eq hr] at h; cases h
  | ok hook =>
    rw [exceptBind_ok_eq hr] at h
    refine ⟨hook, rfl, ?_⟩
    cases hd : hook.additional_dependencies with
    | some deps =>
      rw [hd] at h
      injection h with h2
      exact Or.inl ⟨deps, rfl, h2.symm⟩
    | none =>
      rw [hd] at h
      injection h with h2
      exact Or.inr ⟨rfl, h2.symm⟩

/-- One remote-hook iteration failed: the failure came from resolution. -/
theorem remoteHookStep_error_inv {repo : Repo} {cfg : ConfigWire} {rc : ConfigRemoteRepo}
    {p : PathBuf} {acc : List Hook × List Pending} {hc : ConfigRemoteHook} {e : Error}
    (h : remoteHookStep repo cfg rc p acc hc = .error e) :
    resolveRemoteHook repo cfg hc = .error e := by
  simp only [remoteHookStep] at h
  cases hr : resolveRemoteHook repo cfg hc with
  | error e2 =>
    rw [exceptBind_error_eq hr] at h
    injection h with h2
    exact congrArg Except.error h2
  | ok hook =>
    rw [exceptBind_ok_eq hr] at h
    cases hd : hook.additional_dependencies with
    | some deps => rw [hd] at h; cases h
    | none => rw [hd] at h; cases h

/-- The remote-hook loop succeeded: every override resolved, the hooks without
dependencies were appended in declared order with the shared path, and the
hooks with dependencies were queued in declared order. -/
theorem remoteFold_ok_inv (repo : Repo) (cfg : ConfigWire) (rc : ConfigRemoteRepo)
    (p : PathBuf) (l : List ConfigRemoteHook) :
    ∀ (acc : List Hook × List Pending) (hs : List Hook) (ps : List Pending),
      l.foldlM (remoteHookStep repo cfg rc p) acc = .ok (hs, ps) →
      ∃ rl, l.mapM (resolveRemoteHook repo cfg) = .ok rl
        ∧ hs = acc.1 ++ (rl.filter fun hk => hk.additional_dependencies.isNone).map
            (fun hk => hk.with_path p)
        ∧ ps = acc.2 ++ rl.filterMap fun hk =>
            hk.additional_dependencies.map fun d => (rc, d, hk) := by
  induction l with
  | nil =>
    intro acc hs ps h
    simp only [List.foldlM_nil] at h
    injection h with h2
    subst h2
    exact ⟨[], rfl, by simp, by simp⟩
  | cons hc l ih =>
    intro acc hs ps h
    rw [List.foldlM_cons] at h
    obtain ⟨acc2, hstep, hrest⟩ := exceptBind_ok h
    obtain ⟨hook, hres, hcases⟩ := remoteHookStep_ok_inv hstep
    obtain ⟨rl, hmap, hhs, hps⟩ := ih acc2 hs ps hrest
    refine ⟨hook :: rl, by rw [List.mapM_cons, hres, hmap]; rfl, ?_, ?_⟩
    · rcases hcases with ⟨deps, hdep, hacc⟩ | ⟨hdep, hacc⟩
      · subst hacc
        simp only [List.filter_cons, hdep, Option.isNone_some, Bool.false_eq_true,
          if_false] at hhs ⊢
        exact hhs
      · subst hacc
        simp only [List.filter_cons, hdep, Option.isNone_none, if_true] at hhs ⊢
        rw [hhs]
        simp [List.append_assoc]
    · rcases hcases with ⟨deps, hdep, hacc⟩ | ⟨hdep, hacc⟩
      · subst hacc
        rw [List.filterMap_cons_some (by rw [hdep]; rfl)]
        rw [hps]
        simp [List.append_assoc]
      · subst hacc
        rw [List.filterMap_cons_none (by rw [hdep]; rfl)]
        exact hps

/-- The remote-hook loop succeeded: every override id was found. -/
theorem remoteFold_ok_all_found {repo : Repo} {cfg : ConfigWire} {rc : ConfigRemoteRepo}
    {p : PathBuf} (l : List ConfigRemoteHook) :
    ∀ (acc out : List Hook × List Pending),
      l.foldlM (remoteHookStep repo cfg rc p) acc = .ok out →
      ∀ hc ∈ l, (repo.get_hook hc.id).isSome = true := by
  induction l with
  | nil => intro acc out h hc hmem; cases hmem
  | cons hc0 l ih =>
    intro acc out h hc hmem
    rw [List.foldlM_cons] at h
    obtain ⟨acc2, hstep, hrest⟩ := exceptBind_ok h
    rcases List.mem_cons.mp hmem with rfl | hmem2
    · obtain ⟨hook, hres, _⟩ := remoteHookStep_ok_inv hstep
      exact resolveRemoteHook_ok_found hres
    · exact ih acc2 out hrest hc hmem2

/-- The remote-hook loop failed: some override id is missing from the loaded
manifest, and the error is exactly the `HookNotFound` for it. -/
theorem remoteFold_error_inv {repo : Repo} {cfg : ConfigWire} {rc : ConfigRemoteRepo}
    {p : PathBuf} (l : List ConfigRemoteHook) :
    ∀ (acc : List Hook × List Pending) (e : Error),
      l.foldlM (remoteHookStep repo cfg rc p) acc = .error e →
      ∃ hc ∈ l, repo.get_hook hc.id = none ∧ e = .HookNotFound hc.id repo.display := by
  induction l with
  | nil => intro acc e h; simp only [List.foldlM_nil] at h; cases h
  | cons hc0 l ih =>
    intro acc e h
    rw [List.foldlM_cons] at h
    cases hstep : remoteHookStep repo cfg rc p acc hc0 with
    | error e2 =>
      rw [exceptBind_error_eq hstep] at h
      injection h with h2
      subst h2
      obtain ⟨hnone, he⟩ := resolveRemoteHook_error_inv (remoteHookStep_error_inv hstep)
      exact ⟨hc0, List.mem_cons_self _ _, hnone, he⟩
    | ok acc2 =>
      rw [exceptBind_ok_eq hstep] at h
      obtain ⟨hc, hmem, hnone, he⟩ := ih acc2 e h
      exact ⟨hc, List.mem_cons_of_mem _ hmem, hnone, he⟩

/-- The remote-hook loop fails whenever some declared override id is missing. -/
theorem remoteFold_error_of_missing {repo : Repo} {cfg : ConfigWire} {rc : ConfigRemoteRepo}
    {p : PathBuf} (l : List ConfigRemoteHook) :
    ∀ (acc : List Hook × List Pending),
      (∃ hc ∈ l, repo.get_hook hc.id = none) →
      ∃ e, l.foldlM (remoteHookStep repo cfg rc p) acc = .error e := by
  induction l with
  | nil => rintro acc ⟨hc, hmem, _⟩; cases hmem
  | cons hc0 l ih =>
    rintro acc ⟨hc, hmem, hnone⟩
    rw [List.foldlM_cons]
    cases hstep : remoteHookStep repo cfg rc p acc hc0 with
    | error e => exact ⟨e, rfl⟩
    | ok acc2 =>
      rcases List.mem_cons.mp hmem with rfl | hmem2
      · obtain ⟨hook, hres, _⟩ := remoteHookStep_ok_inv hstep
        have hfound := resolveRemoteHook_ok_found hres
        rw [hnone] at hfound
        cases hfound
      · exact ih acc2 ⟨hc, hmem2, hnone⟩

/-- `loadRemote` succeeded: the store prepared the shared repo path and the
manifest loaded from it. -/
theorem loadRemote_ok_inv {env : Env} {rc : ConfigRemoteRepo} {p : PathBuf} {repo : Repo}
    (h : loadRemote env rc = .ok (p, repo)) :
    env.prepare_remote_repo rc none = .ok p
    ∧ Repo.remote env rc.repo rc.rev p = .ok repo := by
  simp only [loadRemote] at h
  obtain ⟨p2, hp, hrest⟩ := exceptBind_ok h
  have hp2 := mapError_ok_inv hp
  obtain ⟨repo2, hr, hpure⟩ := exceptBind_ok hrest
  injection hpure with hpair
  injection hpair with h1 h2
  subst h1; subst h2
  exact ⟨hp2, hr⟩

/-- Phase-one processing of one repo succeeded: the repo loaded and the
remote-hook loop succeeded from the empty accumulator. -/
theorem prepareRemoteRepoHooks_ok_inv {env : Env} {cfg : ConfigWire} {rc : ConfigRemoteRepo}
    {hs : List Hook} {ps : List Pending}
    (h : prepareRemoteRepoHooks env cfg rc = .ok (hs, ps)) :
    ∃ p repo, loadRemote env rc = .ok (p, repo)
      ∧ rc.hooks.foldlM (remoteHookStep repo cfg rc p) ([], []) = .ok (hs, ps) := by
  simp only [prepareRemoteRepoHooks] at h
  obtain ⟨pr, hload, hfold⟩ := exceptBind_ok h
  obtain ⟨p, repo⟩ := pr
  exact ⟨p, repo, hload, hfold⟩

/-- Phase-one processing of one repo failed: either the load failed with that
error, or the load succeeded and the remote-hook loop failed with it. -/
theorem prepareRemoteRepoHooks_error_inv {env : Env} {cfg : ConfigWire}
    {rc : ConfigRemoteRepo} {e : Error}
    (h : prepareRemoteRepoHooks env cfg rc = .error e) :
    loadRemote env rc = .error e
    ∨ ∃ p repo, loadRemote env rc = .ok (p, repo)
        ∧ rc.hooks.foldlM (remoteHookStep repo cfg rc p) ([], []) = .error e := by
  cases hl : loadRemote env rc with
  | error e2 =>
    simp only [prepareRemoteRepoHooks] at h
    rw [exceptBind_error_eq hl] at h
    injection h with h2
    exact Or.inl (congrArg Except.error h2)
  | ok pr =>
    obtain ⟨p, repo⟩ := pr
    simp only [prepareRemoteRepoHooks] at h
    rw [exceptBind_ok_eq hl] at h
    exact Or.inr ⟨p, repo, rfl, h⟩

/-- One completed repo task appends its results onto the accumulator. -/
theorem repoStep_ok_inv {env : Env} {cfg : ConfigWire} {acc acc2 : List Hook × List Pending}
    {rc : ConfigRemoteRepo} (h : repoStep env cfg acc rc = .ok acc2) :
    ∃ hs ps, prepareRemoteRepoHooks env cfg rc = .ok (hs, ps)
      ∧ acc2 = (acc.1 ++ hs, acc.2 ++ ps) := by
  simp only [repoStep] at h
  obtain ⟨pr, hprep, hrest⟩ := exceptBind_ok h
  obtain ⟨hs, ps⟩ := pr
  injection hrest with h2
  exact ⟨hs, ps, hprep, h2.symm⟩

/-- A failed repo task fails with its repo's preparation error. -/
theorem repoStep_error_inv {env : Env} {cfg : ConfigWire} {acc : List Hook × List Pending}
    {rc : ConfigRemoteRepo} {e : Error} (h : repoStep env cfg acc rc = .error e) :
    prepareRemoteRepoHooks env cfg rc = .error e := by
  simp only [repoStep] at h
  cases hp : prepareRemoteRepoHooks env cfg rc with
  | error e2 =>
    rw [exceptBind_error_eq hp] at h
    injection h with h2
    exact congrArg Except.error h2
  | ok pr =>
    obtain ⟨hs, ps⟩ := pr
    rw [exceptBind_ok_eq hp] at h
    cases h

/-- A second-stage task succeeded: the hook's path is exactly the path the
store returned for the dependency-specific preparation. -/
theorem runPending_ok_inv {env : Env} {pt : Pending} {hk : Hook}
    (h : runPending env pt = .ok hk) :
    ∃ q, env.prepare_remote_repo pt.1 (some pt.2.1) = .ok q
      ∧ hk = pt.2.2.with_path q := by
  simp only [runPending] at h
  cases hp : env.prepare_remote_repo pt.1 (some pt.2.1) with
  | error e => rw [hp] at h; cases h
  | ok q =>
    rw [hp] at h
    injection h with h2
    exact ⟨q, rfl, h2.symm⟩

/-- Phase one fails with a `HookNotFound` naming a missing override and its
repo descriptor whenever every repo in the completion order loads but some
override id is absent from its loaded manifest. -/
theorem repoFold_error_of_missing (env : Env) (cfg : ConfigWire) :
    ∀ (l : List ConfigRemoteRepo) (acc : List Hook × List Pending),
      (∀ rc ∈ l, ∃ pr, loadRemote env rc = .ok pr) →
      (∃ rc ∈ l, ∃ hc ∈ rc.hooks, ∃ pr, loadRemote env rc = .ok pr
          ∧ pr.2.get_hook hc.id = none) →
      ∃ hookId repoS, l.foldlM (repoStep env cfg) acc = .error (.HookNotFound hookId repoS)
        ∧ ∃ rc ∈ l, ∃ hc ∈ rc.hooks, hc.id = hookId ∧ ∃ pr, loadRemote env rc = .ok pr
            ∧ pr.2.get_hook hookId = none ∧ repoS = pr.2.display := by
  intro l
  induction l with
  | nil => rintro acc _ ⟨rc, hmem, _⟩; cases hmem
  | cons rc0 rest ih =>
    rintro acc hload hbad
    rw [List.foldlM_cons]
    cases hstep : repoStep env cfg acc rc0 with
    | error e =>
      have hperr := repoStep_error_inv hstep
      rcases prepareRemoteRepoHooks_error_inv hperr with hle | ⟨p, repo, hl, hfold⟩
      · obtain ⟨pr, hok⟩ := hload rc0 (List.mem_cons_self _ _)
        rw [hok] at hle
        cases hle
      · obtain ⟨hc, hmem, hnone, he⟩ := remoteFold_error_inv rc0.hooks ([], []) e hfold
        subst he
        exact ⟨hc.id, repo.display, rfl, rc0, List.mem_cons_self _ _, hc, hmem, rfl,
          (p, repo), hl, hnone, rfl⟩
    | ok acc2 =>
      rcases hbad with ⟨rc2, hmem2, hcbad⟩
      rcases List.mem_cons.mp hmem2 with rfl | hmemrest
      · obtain ⟨hs, ps, hprep, _⟩ := repoStep_ok_inv hstep
        obtain ⟨p, repo, hl, hfold⟩ := prepareRemoteRepoHooks_ok_inv hprep
        obtain ⟨hc, hcmem, pr, hlo, hnone⟩ := hcbad
        rw [hl] at hlo
        injection hlo with hpr
        subst hpr
        have hnone2 : repo.get_hook hc.id = none := hnone
        have hfound := remoteFold_ok_all_found rc2.hooks ([], []) (hs, ps) hfold hc hcmem
        rw [hnone2] at hfound
        cases hfound
      · obtain ⟨hookId, repoS, hfold2, rc3, hm3, hrest3⟩ :=
          ih acc2 (fun rc h => hload rc (List.mem_cons_of_mem _ h)) ⟨rc2, hmemrest, hcbad⟩
        exact ⟨hookId, repoS, hfold2, rc3, List.mem_cons_of_mem _ hm3, hrest3⟩

/-- C5 (confirmed): a remote override whose id is absent from its repo's loaded
manifest makes `Project::hooks` fail — no hook list is returned — with a
`HookNotFound` error whose message names both the missing hook id and the
repository's display descriptor, which is `url@rev` for remote repositories
and `"local"` for local ones. -/
theorem claim_C5 (env : Env) (cfg : ConfigWire)
    (sched1 : List ConfigRemoteRepo → List ConfigRemoteRepo)
    (sched2 : List Pending → List Pending)
    (hs1 : ∀ l, (sched1 l).Perm l)
    (hload : ∀ rc ∈ remoteConfigs cfg, ∃ pr, loadRemote env rc = .ok pr)
    (hbad : ∃ rc ∈ remoteConfigs cfg, ∃ hc ∈ rc.hooks, ∃ pr, loadRemote env rc = .ok pr
        ∧ pr.2.get_hook hc.id = none) :
    ∃ hookId repoS,
      Project.hooks env cfg sched1 sched2 = .error (.HookNotFound hookId repoS)
      ∧ (∃ rc ∈ remoteConfigs cfg, ∃ hc ∈ rc.hooks, hc.id = hookId
          ∧ ∃ pr, loadRemote env rc = .ok pr ∧ pr.2.get_hook hookId = none
          ∧ repoS = pr.2.display)
      ∧ (Error.HookNotFound hookId repoS).message
          = "Hook not found: " ++ hookId ++ " in repo " ++ repoS
      ∧ (∀ hks : List ManifestHook, (Repo.Local hks).display = "local")
      ∧ (∀ (pth : PathBuf) (u : Url) (rv : String) (hks : List ManifestHook),
          (Repo.Remote pth u rv hks).display = u ++ "@" ++ rv) := by
  have hmem : ∀ rc : ConfigRemoteRepo,
      rc ∈ sched1 (remoteConfigs cfg) ↔ rc ∈ remoteConfigs cfg :=
    fun rc => (hs1 (remoteConfigs cfg)).mem_iff
  obtain ⟨rc, hrc, hrcbad⟩ := hbad
  obtain ⟨hookId, repoS, hfold, rc2, hm2, hrest2⟩ :=
    repoFold_error_of_missing env cfg (sched1 (remoteConfigs cfg)) ([], [])
      (fun rc h => hload rc ((hmem rc).mp h))
      ⟨rc, (hmem rc).mpr hrc, hrcbad⟩
  refine ⟨hookId, repoS, ?_, ⟨rc2, (hmem rc2).mp hm2, hrest2⟩, rfl, fun _ => rfl,
    fun _ _ _ _ => rfl⟩
  simp only [Project.hooks]
  rw [exceptBind_error_eq hfold]

/-- C5 witness: the spec's own scenario — a config referencing hook id
`missing-hook` against a manifest defining only `real-hook`. -/
theorem claim_C5_witness :
    ∃ hookId repoS,
      Project.hooks envMissing cfgMissing id id = .error (.HookNotFound hookId repoS)
      ∧ (∃ rc ∈ remoteConfigs cfgMissing, ∃ hc ∈ rc.hooks, hc.id = hookId
          ∧ ∃ pr, loadRemote envMissing rc = .ok pr ∧ pr.2.get_hook hookId = none
          ∧ repoS = pr.2.display)
      ∧ (Error.HookNotFound hookId repoS).message
          = "Hook not found: " ++ hookId ++ " in repo " ++ repoS
      ∧ (∀ hks : List ManifestHook, (Repo.Local hks).display = "local")
      ∧ (∀ (pth : PathBuf) (u : Url) (rv : String) (hks : List ManifestHook),
          (Repo.Remote pth u rv hks).display = u ++ "@" ++ rv) :=
  claim_C5 envMissing cfgMissing id id (fun l => List.Perm.refl l)
    (by
      intro rc hrc
      rw [show remoteConfigs cfgMissing = [rcMissing] from rfl] at hrc
      rcases List.mem_singleton.mp hrc with rfl
      exact ⟨((loadRemote envMissing rcMissing).toOption.getD ("", .Meta)), rfl⟩)
    ⟨rcMissing, by rw [show remoteConfigs cfgMissing = [rcMissing] from rfl]; exact
        List.mem_singleton.mpr rfl,
      { id := "missing-hook" }, List.mem_singleton.mpr rfl,
      ((loadRemote envMissing rcMissing).toOption.getD ("", .Meta)), rfl, rfl⟩

/-- C1 (counterexample): within one repository, hooks need not appear in the
declared configuration order — a hook with `additional_dependencies` declared
first ends up after a dependency-free sibling declared second, because it is
deferred to the second stage. -/
theorem claim_C1_counterexample :
    rcSched.hooks.map ConfigRemoteHook.id = ["a", "b"]
    ∧ (Project.hooks envSched cfgSched id id).map (fun l => l.map Hook.id)
        = .ok ["b", "a"] := by
  exact ⟨rfl, rfl⟩

/-- C1 (amended, corrected): within one repository, the hooks resolve in
declared order; the ones without `additional_dependencies` are appended
immediately, in declared order, with the shared repo path, while the ones with
`additional_dependencies` are deferred to the pending second-stage queue (in
declared order there), to be appended only after all immediate hooks, in
completion order — so within-repo output order is guaranteed only among the
dependency-free hooks. -/
theorem claim_C1_amended (env : Env) (cfg : ConfigWire) (rc : ConfigRemoteRepo)
    (hs : List Hook) (ps : List Pending)
    (h : prepareRemoteRepoHooks env cfg rc = .ok (hs, ps)) :
    ∃ p repo rl, loadRemote env rc = .ok (p, repo)
      ∧ rc.hooks.mapM (resolveRemoteHook repo cfg) = .ok rl
      ∧ hs = (rl.filter fun hk => hk.additional_dependencies.isNone).map
          (fun hk => hk.with_path p)
      ∧ ps = rl.filterMap fun hk =>
          hk.additional_dependencies.map fun d => (rc, d, hk) := by
  obtain ⟨p, repo, hl, hfold⟩ := prepareRemoteRepoHooks_ok_inv h
  obtain ⟨rl, hmap, hhs, hps⟩ := remoteFold_ok_inv repo cfg rc p rc.hooks ([], []) hs ps hfold
  exact ⟨p, repo, rl, hl, hmap, by simpa using hhs, by simpa using hps⟩

/-- C1 amended witness: the two-hook repo `rcSched` evaluated concretely. -/
theorem claim_C1_amended_witness :
    ∃ p repo rl, loadRemote envSched rcSched = .ok (p, repo)
      ∧ rcSched.hooks.mapM (resolveRemoteHook repo cfgSched) = .ok rl
      ∧ hsSched = (rl.filter fun hk => hk.additional_dependencies.isNone).map
          (fun hk => hk.with_path p)
      ∧ psSched = rl.filterMap fun hk =>
          hk.additional_dependencies.map fun d => (rcSched, d, hk) :=
  claim_C1_amended envSched cfgSched rcSched hsSched psSched rfl

/-- C6 (counterexample): the second-stage dispatch is keyed on the presence of
`additional_dependencies`, not on its non-emptiness — a hook overridden with
the empty dependency list still receives the dependency-specific environment
path, distinct from the shared repo path. -/
theorem claim_C6_counterexample :
    (Project.hooks envEmptyDeps cfgEmptyDeps id id).map
        (fun l => l.map fun hk => (hk.additional_dependencies, hk.path))
      = .ok [(some [], some "deps-path")]
    ∧ envEmptyDeps.prepare_remote_repo rcEmptyDeps none = .ok "shared-path"
    ∧ ("deps-path" : PathBuf) ≠ "shared-path" := by
  exact ⟨rfl, rfl, by decide⟩

/-- C6 (amended, corrected): during remote preparation a resolved hook is
dispatched to a second-stage install if and only if its
`additional_dependencies` is present (`Some`), including present-but-empty;
every immediately-appended hook has no dependency set and carries the shared
repo path, every queued task carries its hook's dependency set, and a
second-stage hook is appended only after its install completes, with the path
the store returned for that dependency-specific preparation. -/
theorem claim_C6_amended (env : Env) (cfg : ConfigWire) (rc : ConfigRemoteRepo)
    (hs : List Hook) (ps : List Pending)
    (h : prepareRemoteRepoHooks env cfg rc = .ok (hs, ps)) :
    (∃ p repo, loadRemote env rc = .ok (p, repo)
      ∧ env.prepare_remote_repo rc none = .ok p
      ∧ ∀ hk ∈ hs, hk.additional_dependencies = none ∧ hk.path = some p)
    ∧ (∀ pt ∈ ps, pt.1 = rc ∧ pt.2.2.additional_dependencies = some pt.2.1)
    ∧ (∀ (env2 : Env) (pt : Pending) (hk : Hook), runPending env2 pt = .ok hk →
        ∃ q, env2.prepare_remote_repo pt.1 (some pt.2.1) = .ok q
          ∧ hk = pt.2.2.with_path q) := by
  obtain ⟨p, repo, hl, hfold⟩ := prepareRemoteRepoHooks_ok_inv h
  obtain ⟨rl, hmap, hhs, hps⟩ := remoteFold_ok_inv repo cfg rc p rc.hooks ([], []) hs ps hfold
  refine ⟨⟨p, repo, hl, (loadRemote_ok_inv hl).1, ?_⟩, ?_, fun env2 pt hk hrun =>
    runPending_ok_inv hrun⟩
  · intro hk hkmem
    rw [hhs] at hkmem
    simp only [List.nil_append, List.mem_map, List.mem_filter] at hkmem
    obtain ⟨hk2, ⟨_, hdep⟩, rfl⟩ := hkmem
    refine ⟨?_, rfl⟩
    have : hk2.additional_dependencies = none := Option.isNone_iff_eq_none.mp hdep
    exact this
  · intro pt ptmem
    rw [hps] at ptmem
    simp only [List.nil_append, List.mem_filterMap] at ptmem
    obtain ⟨hk2, _, hmapeq⟩ := ptmem
    obtain ⟨d, hd, heq⟩ := Option.map_eq_some'.mp hmapeq
    rw [← heq]
    exact ⟨rfl, hd⟩

/-- C6 amended witness: the two-hook repo `rcSched` evaluated concretely. -/
theorem claim_C6_amended_witness :
    (∃ p repo, loadRemote envSched rcSched = .ok (p, repo)
      ∧ envSched.prepare_remote_repo rcSched none = .ok p
      ∧ ∀ hk ∈ hsSched, hk.additional_dependencies = none ∧ hk.path = some p)
    ∧ (∀ pt ∈ psSched, pt.1 = rcSched ∧ pt.2.2.additional_dependencies = some pt.2.1)
    ∧ (∀ (env2 : Env) (pt : Pending) (hk : Hook), runPending env2 pt = .ok hk →
        ∃ q, env2.prepare_remote_repo pt.1 (some pt.2.1) = .ok q
          ∧ hk = pt.2.2.with_path q) :=
  claim_C6_amended envSched cfgSched rcSched hsSched psSched rfl

end Prefligit
